import Mathlib

/-!
Verification of `rtl_split.py` (uintptr/rtl_splitter), a transparent fan-out
proxy for an rtl_tcp-style stream.  Pure shallow embedding: client writers are
identified by natural numbers, byte strings are `List Nat`, and the effects of
the asyncio code (writes to sockets, exceptions) are made explicit as returned
traces and `Except`/`Option` values.
-/

namespace RTLSplit

/-- A byte string (`bytes` in Python). -/
abbrev Bytes := List Nat

/-- Identity of one client's `StreamWriter` handle. -/
abbrev ClientId := Nat

/-! ## RTLCommand (rtl_split.py lines 17-31)

The 14 known rtl_tcp opcodes, `class RTLCommand(enum.Enum)`. -/

inductive RTLCommand where
  | RTLTCP_SET_FREQ
  | RTLTCP_SET_SAMPLE_RATE
  | RTLTCP_SET_GAIN_MODE
  | RTLTCP_SET_GAIN
  | RTLTCP_SET_FREQ_CORRECTION
  | RTLTCP_SET_IF_TUNER_GAIN
  | RTLTCP_SET_TEST_MODE
  | RTLTCP_SET_AGC_MODE
  | RTLTCP_SET_DIRECT_SAMPLING
  | RTLTCP_SET_OFFSET_TUNING
  | RTLTCP_SET_RTL_XTAL
  | RTLTCP_SET_TUNER_XTAL
  | RTLTCP_SET_TUNER_GAIN_BY_ID
  | RTLTCP_SET_BIAS_TEE
  deriving DecidableEq, Repr

/-- `RTLCommand(c)`: the enum constructor call at line 116.  Returns `none`
exactly when Python would raise `ValueError` (opcode not among the 14 known
codes `0x01`-`0x0e`). -/
def RTLCommand.ofNat? (c : Nat) : Option RTLCommand :=
  match c with
  | 0x01 => some .RTLTCP_SET_FREQ
  | 0x02 => some .RTLTCP_SET_SAMPLE_RATE
  | 0x03 => some .RTLTCP_SET_GAIN_MODE
  | 0x04 => some .RTLTCP_SET_GAIN
  | 0x05 => some .RTLTCP_SET_FREQ_CORRECTION
  | 0x06 => some .RTLTCP_SET_IF_TUNER_GAIN
  | 0x07 => some .RTLTCP_SET_TEST_MODE
  | 0x08 => some .RTLTCP_SET_AGC_MODE
  | 0x09 => some .RTLTCP_SET_DIRECT_SAMPLING
  | 0x0a => some .RTLTCP_SET_OFFSET_TUNING
  | 0x0b => some .RTLTCP_SET_RTL_XTAL
  | 0x0c => some .RTLTCP_SET_TUNER_XTAL
  | 0x0d => some .RTLTCP_SET_TUNER_GAIN_BY_ID
  | 0x0e => some .RTLTCP_SET_BIAS_TEE
  | _ => none

/-! ## struct.unpack (rtl_split.py line 114) -/

/-- `struct.unpack(">BI", data)` (line 114): succeeds only on exactly 5 bytes,
yielding `(opcode, value)` with the value big-endian; otherwise Python raises
`struct.error`, modelled as `none`. -/
def unpackBI (data : Bytes) : Option (Nat × Nat) :=
  match data with
  | [b0, b1, b2, b3, b4] =>
      some (b0, b1 * 2 ^ 24 + b2 * 2 ^ 16 + b3 * 2 ^ 8 + b4)
  | _ => none

/-! ## Per-frame command handling (rtl_split.py lines 114-120)

Exceptions that can escape the body of the `while` loop in
`RTLClient.callback`. -/

inductive ClientExc where
  /-- `struct.error` from `struct.unpack(">BI", data)` on fewer than 5 bytes. -/
  | structError
  /-- `ValueError` from `RTLCommand(c)` on an unknown opcode. -/
  | valueError
  deriving DecidableEq, Repr

/-- Lines 114-120 of `RTLClient.callback`, for one read result `data`:
`struct.unpack`, then the `RTLCommand(c)` constructor, then
`send_command(data)`.  Returns the bytes forwarded upstream
(`.ok data` - forwarded verbatim) or the exception raised before the
forward. -/
def handleFrame (data : Bytes) : Except ClientExc Bytes :=
  match unpackBI data with
  | none => .error .structError
  | some (c, _v) =>
      match RTLCommand.ofNat? c with
      | none => .error .valueError
      | some _cmd => .ok data

/-- The `while` loop of `RTLClient.callback` (lines 108-120), driven by the
successive results of `await reader.read(5)` given in `reads` (each at most 5
bytes; `[]` is a zero-length read, i.e. the peer closed).  Returns the list of
frames forwarded upstream via `send_command`, in order, and `some e` when the
loop was exited by exception `e` (rather than by the clean `break`). -/
def commandLoop : List Bytes → List Bytes × Option ClientExc
  | [] => ([], none)
  | data :: rest =>
      if data = [] then ([], none)
      else
        match handleFrame data with
        | .error e => ([], some e)
        | .ok fwd =>
            let r := commandLoop rest
            (fwd :: r.1, r.2)

/-! ## Client registry (rtl_split.py lines 40, 63-69) -/

/-- Python `list.remove(x)`: removes the first occurrence, raising
`ValueError` (modelled as `.error`) when `x` is absent. -/
def pyListRemove (l : List ClientId) (w : ClientId) : Except String (List ClientId) :=
  if w ∈ l then .ok (l.erase w) else .error "ValueError"

/-- `RTLSplitter.add_client` (lines 63-64): `self.client_writers.append(writer)`. -/
def add_client (l : List ClientId) (w : ClientId) : List ClientId :=
  l ++ [w]

/-- `RTLSplitter.rem_client` (lines 66-69):
`if writer in self.client_writers: self.client_writers.remove(writer)`.
The membership guard means the call never raises. -/
def rem_client (l : List ClientId) (w : ClientId) : Except String (List ClientId) :=
  if w ∈ l then pyListRemove l w else .ok l

/-! ## Broadcast (rtl_split.py lines 81-90)

```python
for c in self.client_writers:
    try:
        c.write(data)
        await c.drain()
    except ConnectionResetError:
        if c in self.client_writers:
            self.client_writers.remove(c)
    except BrokenPipeError:
        if c in self.client_writers:
            self.client_writers.remove(c)
```

A Python `for` over a list uses an internal index: `next` returns `lst[i]` and
sets `i := i + 1`; removals shrink the very list being indexed.  `fail c`
says whether the write-and-drain to client `c` raises for this chunk
(`ConnectionResetError` / `BrokenPipeError`). -/

/-- One chunk's broadcast loop, starting at iterator index `i`.  Returns the
final `client_writers` list and the clients whose write-and-drain completed
without an exception, in iteration order. -/
def broadcastFrom (fail : ClientId → Bool) (l : List ClientId) (i : Nat) :
    List ClientId × List ClientId :=
  if h : i < l.length then
    let c := l.get ⟨i, h⟩
    if fail c then
      broadcastFrom fail (if c ∈ l then l.erase c else l) (i + 1)
    else
      let r := broadcastFrom fail l (i + 1)
      (r.1, c :: r.2)
  else
    (l, [])
termination_by l.length - i
decreasing_by
  · have hc : l.get ⟨i, h⟩ ∈ l := l.get_mem _ _
    simp only [hc, if_true, dite_true, List.length_erase_of_mem hc]
    omega
  · omega

/-- The broadcast of one chunk (lines 81-90), iterating from index 0. -/
def broadcast (fail : ClientId → Bool) (l : List ClientId) :
    List ClientId × List ClientId :=
  broadcastFrom fail l 0

/-! ## Splitter state and upstream loop (rtl_split.py lines 34-90) -/

/-- The mutable state of an `RTLSplitter` object: the registered client
writers (line 40), the captured header (lines 42/50), and the frames so far
written to the upstream writer by `send_command` (line 60), each write one
list element. -/
structure RTLSplitterState where
  clientWriters : List ClientId
  header : Bytes
  upstreamWrites : List Bytes
  deriving DecidableEq, Repr

/-- `RTLSplitter.__aenter__` (lines 44-52): connect upstream and capture
`self.header = await r.read(RTL_HEADER_SIZE)`; `hdrRead` is the byte string
that read returned (at most 12 bytes).  `client_writers` starts empty
(line 40) and nothing has been written upstream yet. -/
def aenter (hdrRead : Bytes) : RTLSplitterState :=
  { clientWriters := [], header := hdrRead, upstreamWrites := [] }

/-- `RTLSplitter.send_command` (lines 59-61): one `writer.write(cmd)` of the
whole frame, then `drain` - a single write event appended to the upstream
trace. -/
def send_command (st : RTLSplitterState) (cmd : Bytes) : RTLSplitterState :=
  { st with upstreamWrites := st.upstreamWrites ++ [cmd] }

/-- State-level `add_client`. -/
def addClientS (st : RTLSplitterState) (w : ClientId) : RTLSplitterState :=
  { st with clientWriters := add_client st.clientWriters w }

/-- State-level `rem_client` (never raises, by the guard at line 68). -/
def remClientS (st : RTLSplitterState) (w : ClientId) : RTLSplitterState :=
  { st with clientWriters := (rem_client st.clientWriters w).toOption.getD st.clientWriters }

/-- State-level broadcast of one chunk: only `client_writers` is touched
(lines 81-90 read and mutate only `self.client_writers`).  Also returns the
clients the chunk was delivered to. -/
def broadcastS (fail : ClientId → Bool) (st : RTLSplitterState) :
    RTLSplitterState × List ClientId :=
  let r := broadcast fail st.clientWriters
  ({ st with clientWriters := r.1 }, r.2)

/-- One state-mutating operation on the shared `RTLSplitter` object, as
performed by the accept loop, the per-client tasks and the upstream loop. -/
inductive SplitterOp where
  | addClient (w : ClientId)
  | remClient (w : ClientId)
  | broadcastChunk (fail : ClientId → Bool)
  | sendCmd (cmd : Bytes)

/-- Apply one operation to the splitter state. -/
def applyOp (st : RTLSplitterState) : SplitterOp → RTLSplitterState
  | .addClient w => addClientS st w
  | .remClient w => remClientS st w
  | .broadcastChunk fail => (broadcastS fail st).1
  | .sendCmd cmd => send_command st cmd

/-- Apply a sequence of operations. -/
def applyOps (st : RTLSplitterState) : List SplitterOp → RTLSplitterState
  | [] => st
  | op :: rest => applyOps (applyOp st op) rest

/-- `RTLSplitter.splitter` (lines 71-90) driven by the successive results of
`await self.reader.read(1024)` given in `reads` (each at most 1024 bytes,
`[]` = zero-length read = peer closed).  Returns the final client list, the
broadcast events `(chunk, delivered-to)` in order, and whether the loop
terminated via the `break` at line 79 (as opposed to still awaiting a further
read). -/
def splitterLoop (fail : ClientId → Bool) :
    List Bytes → List ClientId → List ClientId × List (Bytes × List ClientId) × Bool
  | [], cl => (cl, [], false)
  | data :: rest, cl =>
      if data = [] then (cl, [], true)
      else
        let b := broadcast fail cl
        let r := splitterLoop fail rest b.1
        (r.1, (data, b.2) :: r.2.1, r.2.2)

/-! ## Per-client handler trace (rtl_split.py lines 98-128)

`RTLClient.callback` in full, as a trace-producing function over an explicit
environment describing the outcome of each I/O operation.  Python structure:

```python
self.rtl.add_client(writer)
try:
    try:
        writer.write(self.rtl.header); await writer.drain()
        while True:
            data = await reader.read(5)
            if b'' == data: break
            c, v = struct.unpack(">BI", data)
            cmd = RTLCommand(c)
            await self.rtl.send_command(data)
    finally:
        self.rtl.rem_client(writer)
        writer.close()
        await writer.wait_closed()
except asyncio.exceptions.CancelledError: pass
except ConnectionResetError: pass
```
-/

/-- Outcome of a write-and-drain (`writer.write(..); await writer.drain()`,
or `send_command`'s write-and-drain on the upstream writer). -/
inductive WriteRes where
  | ok
  | reset
  | brokenPipe
  | cancelled
  deriving DecidableEq, Repr

/-- How the `await reader.read(5)` issued after all the data reads in
`dataReads` resolves: a zero-length read (peer closed cleanly), a
`ConnectionResetError`, or a `CancelledError` delivered while awaiting. -/
inductive ReadTerm where
  | eof
  | reset
  | cancelled
  deriving DecidableEq, Repr

/-- Outcome of `writer.close(); await writer.wait_closed()` in the `finally`
block: clean, or `wait_closed` re-raises the connection-lost
`ConnectionResetError`, or a `CancelledError` arrives during the await. -/
inductive CloseRes where
  | ok
  | reset
  | cancelled
  deriving DecidableEq, Repr

/-- Exceptions that can be in flight inside `callback`. -/
inductive Exc where
  | reset
  | brokenPipe
  | cancelled
  | structError
  | valueError
  deriving DecidableEq, Repr

/-- Observable events of one `callback` execution. -/
inductive Ev where
  /-- `self.rtl.add_client(writer)` (line 101). -/
  | evAdd
  /-- the header write to the client (lines 105-106). -/
  | evHdr
  /-- `await self.rtl.send_command(data)` (line 120). -/
  | evSend (f : Bytes)
  /-- `self.rtl.rem_client(writer)` (line 122). -/
  | evRem
  /-- `writer.close(); await writer.wait_closed()` (lines 123-124). -/
  | evClose
  deriving DecidableEq, Repr

/-- How the `callback` coroutine finishes: a clean return, an exception
swallowed by one of the two outer `except` clauses, or an exception
propagating out of the coroutine. -/
inductive Outcome where
  | normal
  | swallowed (e : Exc)
  | raised (e : Exc)
  deriving DecidableEq, Repr

/-- The exception a failed write-and-drain raises. -/
def excOfWrite : WriteRes → Exc
  | .ok => .reset
  | .reset => .reset
  | .brokenPipe => .brokenPipe
  | .cancelled => .cancelled

/-- Environment of one `callback` execution: the outcome of every I/O
operation it performs, in program order. -/
structure CallbackEnv where
  /-- outcome of the header write-and-drain (lines 105-106). -/
  hdrRes : WriteRes
  /-- the byte strings returned by the successive successful data reads
  (line 109); `[]` entries model a zero-length read. -/
  dataReads : List Bytes
  /-- how the read after those resolves. -/
  finalRead : ReadTerm
  /-- outcomes of the successive `send_command` write-and-drains
  (line 120 / lines 59-61); missing entries default to `ok`. -/
  sendRes : List WriteRes
  /-- outcome of close/wait_closed in the `finally` (lines 123-124). -/
  closeRes : CloseRes

/-- The `while` loop of `callback` (lines 108-120), producing the events of
the loop body and the exception (if any) that exits it.  `none` means the
clean `break` on a zero-length read. -/
def loopPhase (fin : ReadTerm) : List Bytes → List WriteRes → List Ev × Option Exc
  | [], _ =>
      match fin with
      | .eof => ([], none)
      | .reset => ([], some .reset)
      | .cancelled => ([], some .cancelled)
  | data :: rest, sends =>
      if data = [] then ([], none)
      else
        match handleFrame data with
        | .error .structError => ([], some .structError)
        | .error .valueError => ([], some .valueError)
        | .ok fwd =>
            match sends.headD .ok with
            | .ok =>
                let r := loopPhase fin rest sends.tail
                (Ev.evSend fwd :: r.1, r.2)
            | w => ([Ev.evSend fwd], some (excOfWrite w))

/-- One full execution of `RTLClient.callback` (lines 98-128): the event
trace and how the coroutine finishes.  The `finally` block (`rem_client`,
close) runs whether the inner block returned or raised; an exception raised
inside the `finally` replaces the in-flight one (Python semantics); the two
outer `except` clauses swallow exactly `CancelledError` and
`ConnectionResetError`. -/
def callbackRun (env : CallbackEnv) : List Ev × Outcome :=
  let body : List Ev × Option Exc :=
    match env.hdrRes with
    | .ok =>
        let r := loopPhase env.finalRead env.dataReads env.sendRes
        (Ev.evHdr :: r.1, r.2)
    | w => ([], some (excOfWrite w))
  let closeExc : Option Exc :=
    match env.closeRes with
    | .ok => none
    | .reset => some .reset
    | .cancelled => some .cancelled
  let pending : Option Exc :=
    match closeExc with
    | some e => some e
    | none => body.2
  let outcome : Outcome :=
    match pending with
    | none => .normal
    | some .reset => .swallowed .reset
    | some .cancelled => .swallowed .cancelled
    | some e => .raised e
  (Ev.evAdd :: body.1 ++ [Ev.evRem, Ev.evClose], outcome)

/-! ## Concurrent command submission (rtl_split.py lines 59-61, 120)

`send_command` is `self.writer.write(cmd); await self.writer.drain()`.
`StreamWriter.write` is a plain synchronous call that appends the whole
5-byte frame to the transport buffer; the only suspension point is the
`drain` after it, so under asyncio's cooperative scheduling each
`send_command` appends its frame atomically.  We model the client tasks'
interleaving by a schedule: `qs i` is client `i`'s list of frames in
issuance order, and each schedule entry lets the named client perform its
next `send_command`. -/

/-- Run a schedule: each entry `i` makes client `i` write its next pending
frame (a no-op when that client has none left).  Returns the sequence of
`(client, frame)` write events on the upstream connection, in order. -/
def runSched : (ClientId → List Bytes) → List ClientId → List (ClientId × Bytes)
  | _, [] => []
  | qs, i :: rest =>
      match qs i with
      | [] => runSched qs rest
      | f :: fs => (i, f) :: runSched (Function.update qs i fs) rest

/-- The byte stream the upstream connection observes: the concatenation of
the frames in write order (each `write` call appends its whole frame). -/
def upstreamBytes (qs : ClientId → List Bytes) (sched : List ClientId) : Bytes :=
  ((runSched qs sched).map Prod.snd).flatten

/-- The byte strings written to one client's socket, in program order.
Lines 101-106 run `add_client` and then the header write-and-drain with no
intervening `await` before the `writer.write(self.rtl.header)` call, so no
broadcast write can be scheduled ahead of the header; every later write to
this client is a broadcast chunk from `splitter` (lines 83-84). -/
def clientWriteSeq (st : RTLSplitterState) (laterChunks : List Bytes) : List Bytes :=
  st.header :: laterChunks

/-! ## Equation lemmas for the broadcast loop -/

theorem broadcastFrom_stop (fail : ClientId → Bool) (l : List ClientId) (i : Nat)
    (h : ¬ i < l.length) : broadcastFrom fail l i = (l, []) := by
  rw [broadcastFrom]
  simp [h]

theorem broadcastFrom_ok (fail : ClientId → Bool) (l : List ClientId) (i : Nat)
    (h : i < l.length) (hf : fail (l.get ⟨i, h⟩) = false) :
    broadcastFrom fail l i =
      ((broadcastFrom fail l (i + 1)).1,
        l.get ⟨i, h⟩ :: (broadcastFrom fail l (i + 1)).2) := by
  rw [broadcastFrom]
  rw [List.get_eq_getElem] at hf
  simp [h, hf]

theorem broadcastFrom_fail (fail : ClientId → Bool) (l : List ClientId) (i : Nat)
    (h : i < l.length) (hf : fail (l.get ⟨i, h⟩) = true) :
    broadcastFrom fail l i =
      broadcastFrom fail (l.erase (l.get ⟨i, h⟩)) (i + 1) := by
  rw [broadcastFrom]
  have hc : l.get ⟨i, h⟩ ∈ l := l.get_mem _ _
  rw [List.get_eq_getElem] at hf hc
  simp [h, hf, hc]

/-! ## Shape lemmas for frames -/

theorem unpackBI_none (d : Bytes) (h : d.length ≠ 5) : unpackBI d = none := by
  rcases d with _ | ⟨a, _ | ⟨b, _ | ⟨c, _ | ⟨e, _ | ⟨f, _ | g⟩⟩⟩⟩⟩ <;>
    simp_all [unpackBI]

theorem handleFrame_ok_shape (d f : Bytes) (h : handleFrame d = Except.ok f) :
    f = d ∧ d.length = 5 := by
  by_cases hl : d.length = 5
  · rcases d with _ | ⟨a, _ | ⟨b, _ | ⟨c, _ | ⟨e, _ | ⟨v, _ | g⟩⟩⟩⟩⟩ <;> simp_all
    rcases hx : RTLCommand.ofNat? a with _ | cmd <;>
      simp [handleFrame, unpackBI, hx] at h
    exact h.symm
  · rw [show handleFrame d = Except.error ClientExc.structError by
      simp [handleFrame, unpackBI_none d hl]] at h
    exact absurd h (by simp)

/-! # Claim theorems -/

/-- **C2** (counterexample): a well-formed 5-byte frame whose opcode byte is
`0x00` - outside the 14 known `RTLCommand` codes - is NOT forwarded
upstream: the `RTLCommand(c)` constructor at line 116 raises `ValueError`
before `send_command` at line 120 is reached, so the loop exits with that
exception and nothing is forwarded. -/
theorem C2_counterexample :
    handleFrame [0, 0, 0, 0, 100] = Except.error ClientExc.valueError ∧
    commandLoop [[0, 0, 0, 0, 100]] = ([], some ClientExc.valueError) :=
  ⟨rfl, rfl⟩

/-- **C2** (amended): for a 5-byte command frame, forwarding is gated by the
opcode: a known opcode makes the frame reach `send_command` verbatim
(unmutated), while an unknown opcode raises `ValueError` from the
`RTLCommand` constructor and the frame is not forwarded. -/
theorem C2_opcode_gates_forwarding (b0 b1 b2 b3 b4 : Nat) :
    (∀ cmd, RTLCommand.ofNat? b0 = some cmd →
      handleFrame [b0, b1, b2, b3, b4] = Except.ok [b0, b1, b2, b3, b4]) ∧
    (RTLCommand.ofNat? b0 = none →
      handleFrame [b0, b1, b2, b3, b4] = Except.error ClientExc.valueError) := by
  constructor
  · intro cmd hc
    simp [handleFrame, unpackBI, hc]
  · intro hc
    simp [handleFrame, unpackBI, hc]

/-- **C2** witness: a frame with known opcode `0x01` is forwarded verbatim. -/
theorem C2_opcode_gates_forwarding_witness :
    handleFrame [1, 0, 0, 0, 100] = Except.ok [1, 0, 0, 0, 100] :=
  (C2_opcode_gates_forwarding 1 0 0 0 100).1 RTLCommand.RTLTCP_SET_FREQ rfl

/-- **C3** (counterexample): a read that yields a single byte while the
connection is still open (a further full frame follows) does not make the
handler keep reading: `struct.unpack` at line 114 raises `struct.error`
immediately, the handler tears down, and the later complete frame is never
forwarded. -/
theorem C3_counterexample :
    commandLoop [[1], [2, 0, 0, 0, 5]] = ([], some ClientExc.structError) :=
  rfl

/-- **C3** (amended): a command is never forwarded upstream partially - every
frame reaching `send_command` has exactly 5 bytes - but a partial read
(1-4 bytes) is not retried: it raises `struct.error` and exits the loop. -/
theorem C3_no_partial_forward (reads : List Bytes) :
    (∀ f ∈ (commandLoop reads).1, f.length = 5) ∧
    (∀ d rest, reads = d :: rest → d ≠ [] → d.length ≠ 5 →
      commandLoop reads = ([], some ClientExc.structError)) := by
  constructor
  · induction reads with
    | nil => simp [commandLoop]
    | cons d rest ih =>
        intro f hf
        by_cases hd : d = []
        · simp [commandLoop, hd] at hf
        · cases hh : handleFrame d with
          | error e =>
              rw [show commandLoop (d :: rest) = ([], some e) by
                simp [commandLoop, hd, hh]] at hf
              simp at hf
          | ok fwd =>
              rw [show commandLoop (d :: rest) =
                  (fwd :: (commandLoop rest).1, (commandLoop rest).2) by
                simp [commandLoop, hd, hh]] at hf
              rcases List.mem_cons.1 hf with rfl | hf2
              · obtain ⟨hfd, hlen⟩ := handleFrame_ok_shape d f hh
                rw [hfd]
                exact hlen
              · exact ih f hf2
  · intro d rest hr hd hl
    subst hr
    simp [commandLoop, hd, handleFrame, unpackBI_none d hl]

/-- **C3** witness: a lone 1-byte read exits the loop with `struct.error`
and forwards nothing. -/
theorem C3_no_partial_forward_witness :
    commandLoop [[3]] = ([], some ClientExc.structError) :=
  (C3_no_partial_forward [[3]]).2 [3] [] rfl (by decide) (by decide)

/-- **C5**: every 5-byte command frame whose opcode byte is a known
`RTLCommand` code passes `struct.unpack` and the `RTLCommand` constructor
and is forwarded verbatim; sent alone it is the only frame forwarded, and
`send_command` appends exactly those 5 bytes to the upstream writer as one
write event. -/
theorem C5_known_command_forwarded (b0 b1 b2 b3 b4 : Nat) (cmd : RTLCommand)
    (h : RTLCommand.ofNat? b0 = some cmd) :
    handleFrame [b0, b1, b2, b3, b4] = Except.ok [b0, b1, b2, b3, b4] ∧
    commandLoop [[b0, b1, b2, b3, b4]] = ([[b0, b1, b2, b3, b4]], none) ∧
    ∀ st : RTLSplitterState,
      (send_command st [b0, b1, b2, b3, b4]).upstreamWrites =
        st.upstreamWrites ++ [[b0, b1, b2, b3, b4]] := by
  have hf : handleFrame [b0, b1, b2, b3, b4] = Except.ok [b0, b1, b2, b3, b4] := by
    simp [handleFrame, unpackBI, h]
  refine ⟨hf, ?_, fun _ => rfl⟩
  simp [commandLoop, hf]

/-- **C5** witness: the spec's example frame `b'\x01\x00\x00\x00\x64'`
(opcode 1 = `SET_FREQ`, value 100) is forwarded verbatim as the sole
frame. -/
theorem C5_known_command_forwarded_witness :
    handleFrame [1, 0, 0, 0, 100] = Except.ok [1, 0, 0, 0, 100] ∧
    commandLoop [[1, 0, 0, 0, 100]] = ([[1, 0, 0, 0, 100]], none) :=
  ⟨(C5_known_command_forwarded 1 0 0 0 100 RTLCommand.RTLTCP_SET_FREQ rfl).1,
    (C5_known_command_forwarded 1 0 0 0 100 RTLCommand.RTLTCP_SET_FREQ rfl).2.1⟩

/-- **C6**: `rem_client` on an absent handle is a no-op that raises no
error; on a present handle it removes (the first occurrence of) that
handle, decrementing its multiplicity. -/
theorem C6_rem_client_idempotent (l : List ClientId) (w : ClientId) :
    (w ∉ l → rem_client l w = Except.ok l) ∧
    (w ∈ l →
      rem_client l w = Except.ok (l.erase w) ∧
      (l.erase w).count w = l.count w - 1) := by
  refine ⟨fun hw => ?_, fun hw => ⟨?_, ?_⟩⟩
  · simp [rem_client, hw]
  · simp [rem_client, pyListRemove, hw]
  · exact List.count_erase_self w l

/-- **C6** witness: removing the absent handle 3 from `[1, 2]` is a no-op;
removing the present handle 1 yields `[2]`. -/
theorem C6_rem_client_idempotent_witness :
    rem_client [1, 2] 3 = Except.ok [1, 2] ∧
    rem_client [1, 2] 1 = Except.ok [2] := by
  refine ⟨(C6_rem_client_idempotent [1, 2] 3).1 (by decide), ?_⟩
  have h := ((C6_rem_client_idempotent [1, 2] 1).2 (by decide)).1
  simpa using h

/-- **C7**: the upstream loop broadcasts exactly the non-empty chunks read
before the first zero-length read, in read order, and the `break` at
line 79 fires exactly when some read returned the zero-length result.
(`reads` lists the results of the successive `reader.read(1024)` calls,
each of which yields at most 1024 bytes.) -/
theorem C7_upstream_loop (fail : ClientId → Bool) (reads : List Bytes)
    (cl : List ClientId) :
    ((splitterLoop fail reads cl).2.1.map Prod.fst =
      reads.takeWhile (fun d => !d.isEmpty)) ∧
    ((splitterLoop fail reads cl).2.2 = true ↔ [] ∈ reads) := by
  induction reads generalizing cl with
  | nil => simp [splitterLoop]
  | cons d rest ih =>
      by_cases hd : d = []
      · subst hd
        simp [splitterLoop, List.takeWhile]
      · rw [show splitterLoop fail (d :: rest) cl =
            ((splitterLoop fail rest (broadcast fail cl).1).1,
             (d, (broadcast fail cl).2) ::
               (splitterLoop fail rest (broadcast fail cl).1).2.1,
             (splitterLoop fail rest (broadcast fail cl).1).2.2) by
          simp [splitterLoop, hd]]
        obtain ⟨ih1, ih2⟩ := ih (broadcast fail cl).1
        have hne : d.isEmpty = false := by
          simp [List.isEmpty_iff, hd]
        constructor
        · simp [List.takeWhile, hne, ih1]
        · have hd' : ¬ ([] : Bytes) = d := fun h => hd h.symm
          rw [List.mem_cons]
          simp [ih2, hd']

/-! ## Broadcast without failures -/

theorem broadcastFrom_no_fail (fail : ClientId → Bool) (l : List ClientId)
    (h : ∀ c ∈ l, fail c = false) :
    ∀ i, broadcastFrom fail l i = (l, l.drop i) := by
  suffices H : ∀ n i, l.length - i = n → broadcastFrom fail l i = (l, l.drop i) from
    fun i => H _ i rfl
  intro n
  induction n with
  | zero =>
      intro i hi
      have hge : ¬ i < l.length := by omega
      rw [broadcastFrom_stop fail l i hge, List.drop_eq_nil_of_le (by omega)]
  | succ n ihn =>
      intro i hi
      by_cases hlt : i < l.length
      · have hf : fail (l.get ⟨i, hlt⟩) = false := h _ (l.get_mem _ _)
        rw [broadcastFrom_ok fail l i hlt hf, ihn (i + 1) (by omega),
          List.drop_eq_getElem_cons hlt]
        simp [List.get_eq_getElem]
      · rw [broadcastFrom_stop fail l i hlt, List.drop_eq_nil_of_le (by omega)]

/-- **C10**: a broadcast in which no client write raises leaves the whole
splitter state (client list included: same handles, multiplicities and
order; header; upstream writes) exactly as it was, and delivers the chunk to
every registered client in registry order. -/
theorem C10_broadcast_no_failure_pure (fail : ClientId → Bool)
    (st : RTLSplitterState) (h : ∀ c ∈ st.clientWriters, fail c = false) :
    broadcastS fail st = (st, st.clientWriters) := by
  have hb : broadcast fail st.clientWriters = (st.clientWriters, st.clientWriters) := by
    rw [broadcast, broadcastFrom_no_fail fail _ h 0]
    simp
  simp [broadcastS, hb]

/-- **C10** witness: a failure-free broadcast over registry `[4, 5]` returns
the state unchanged and delivers to both clients. -/
theorem C10_broadcast_no_failure_pure_witness :
    broadcastS (fun _ => false) ⟨[4, 5], [9], []⟩ = (⟨[4, 5], [9], []⟩, [4, 5]) :=
  C10_broadcast_no_failure_pure (fun _ => false) ⟨[4, 5], [9], []⟩ (fun _ _ => rfl)

/-- **C1** (failing run): with registry `[1, 2, 3]` and the write to client 1
failing (`ConnectionResetError`), the loop at lines 81-90 removes 1 from the
list it is iterating, which shifts client 2 under the iterator's index:
client 2 - still registered, still live - never receives the chunk
(delivered only to client 3).  The spec's \"no handle skipped\" requirement
is violated because the `for` iterates the very list it mutates instead of a
snapshot. -/
theorem C1_broadcast_skips_live_client :
    broadcast (fun c => c == 1) [1, 2, 3] = ([2, 3], [3]) ∧
    (2 : ClientId) ∈ [2, 3] ∧ (2 : ClientId) ∉ [3] := by
  refine ⟨?_, by decide, by decide⟩
  rw [broadcast,
    broadcastFrom_fail (fun c => c == 1) [1, 2, 3] 0 (by decide) (by decide)]
  show broadcastFrom (fun c => c == 1) [2, 3] 1 = ([2, 3], [3])
  rw [broadcastFrom_ok (fun c => c == 1) [2, 3] 1 (by decide) (by decide),
    broadcastFrom_stop (fun c => c == 1) [2, 3] 2 (by decide)]
  rfl

/-! ## Header immutability -/

theorem applyOp_header (st : RTLSplitterState) (op : SplitterOp) :
    (applyOp st op).header = st.header := by
  cases op <;> simp [applyOp, addClientS, remClientS, broadcastS, send_command]

theorem applyOps_header (st : RTLSplitterState) (ops : List SplitterOp) :
    (applyOps st ops).header = st.header := by
  induction ops generalizing st with
  | nil => rfl
  | cons op rest ih => rw [applyOps, ih, applyOp_header]

/-- **C4**: whatever splitter operations run between upstream connect and a
client's accept (any connection order or timing), the header field still
holds exactly the bytes captured in `__aenter__`, and the first byte string
written to a newly accepted client is exactly that header. -/
theorem C4_header_replayed_verbatim (hdrRead : Bytes) (ops : List SplitterOp)
    (later : List Bytes) :
    (applyOps (aenter hdrRead) ops).header = hdrRead ∧
    (clientWriteSeq (applyOps (aenter hdrRead) ops) later).head? = some hdrRead := by
  have h : (applyOps (aenter hdrRead) ops).header = hdrRead :=
    applyOps_header (aenter hdrRead) ops
  exact ⟨h, by simp [clientWriteSeq, h]⟩

/-! ## The per-client loop emits neither remove nor close events -/

theorem loopPhase_no_rem_close (fin : ReadTerm) (reads : List Bytes)
    (sends : List WriteRes) :
    Ev.evRem ∉ (loopPhase fin reads sends).1 ∧
    Ev.evClose ∉ (loopPhase fin reads sends).1 := by
  induction reads generalizing sends with
  | nil => cases fin <;> simp [loopPhase]
  | cons d rest ih =>
      by_cases hd : d = []
      · simp [loopPhase, hd]
      · cases hh : handleFrame d with
        | error e => cases e <;> simp [loopPhase, hd, hh]
        | ok fwd =>
            cases hw : sends.head?.getD WriteRes.ok with
            | ok =>
                obtain ⟨ih1, ih2⟩ := ih sends.tail
                simp [loopPhase, hd, hh, hw, ih1, ih2]
            | reset => simp [loopPhase, hd, hh, hw]
            | brokenPipe => simp [loopPhase, hd, hh, hw]
            | cancelled => simp [loopPhase, hd, hh, hw]

/-- **C8**: on every execution of `callback` - clean client close,
header-write failure, read error or reset, malformed or unknown frame,
cancellation, whatever the outcomes of the individual I/O operations - the
Closing step runs exactly once: exactly one `rem_client` event and exactly
one close event, in that order, at the very end of the trace; and a
`ConnectionResetError` or `CancelledError` raised by the close itself is
swallowed by the outer `except` clauses. -/
theorem C8_closing_exactly_once (env : CallbackEnv) :
    ((callbackRun env).1.count Ev.evRem = 1 ∧
      (callbackRun env).1.count Ev.evClose = 1) ∧
    (∃ pre, (callbackRun env).1 = pre ++ [Ev.evRem, Ev.evClose]) ∧
    (env.closeRes = CloseRes.reset →
      (callbackRun env).2 = Outcome.swallowed Exc.reset) ∧
    (env.closeRes = CloseRes.cancelled →
      (callbackRun env).2 = Outcome.swallowed Exc.cancelled) := by
  obtain ⟨hr, dr, fr, sr, cr⟩ := env
  have hB : ∀ B : List Ev, Ev.evRem ∉ B → Ev.evClose ∉ B →
      ((Ev.evAdd :: (B ++ [Ev.evRem, Ev.evClose])).count Ev.evRem = 1 ∧
        (Ev.evAdd :: (B ++ [Ev.evRem, Ev.evClose])).count Ev.evClose = 1) := by
    intro B h1 h2
    constructor <;>
      simp [List.count_cons, List.count_append,
        List.count_eq_zero_of_not_mem h1, List.count_eq_zero_of_not_mem h2]
  refine ⟨?_, ?_, fun h => by subst h; rfl, fun h => by subst h; rfl⟩
  · cases hr with
    | ok =>
        obtain ⟨hn1, hn2⟩ := loopPhase_no_rem_close fr dr sr
        exact hB (Ev.evHdr :: (loopPhase fr dr sr).1)
          (by simp [hn1]) (by simp [hn2])
    | reset => exact hB [] (by simp) (by simp)
    | brokenPipe => exact hB [] (by simp) (by simp)
    | cancelled => exact hB [] (by simp) (by simp)
  · cases hr with
    | ok => exact ⟨Ev.evAdd :: Ev.evHdr :: (loopPhase fr dr sr).1, rfl⟩
    | reset => exact ⟨[Ev.evAdd], rfl⟩
    | brokenPipe => exact ⟨[Ev.evAdd], rfl⟩
    | cancelled => exact ⟨[Ev.evAdd], rfl⟩

/-- **C8** witness: a run whose client closes cleanly but whose
`wait_closed` raises `ConnectionResetError` still produces exactly one
remove event, and the close error is swallowed. -/
theorem C8_closing_exactly_once_witness :
    (callbackRun ⟨WriteRes.ok, [], ReadTerm.eof, [], CloseRes.reset⟩).1.count
        Ev.evRem = 1 ∧
    (callbackRun ⟨WriteRes.ok, [], ReadTerm.eof, [], CloseRes.reset⟩).2 =
      Outcome.swallowed Exc.reset :=
  ⟨(C8_closing_exactly_once ⟨WriteRes.ok, [], ReadTerm.eof, [], CloseRes.reset⟩).1.1,
    (C8_closing_exactly_once ⟨WriteRes.ok, [], ReadTerm.eof, [], CloseRes.reset⟩).2.2.1 rfl⟩

/-! ## Command submission: provenance and per-client order -/

theorem runSched_mem (qs : ClientId → List Bytes) (sched : List ClientId) :
    ∀ p ∈ runSched qs sched, p.2 ∈ qs p.1 := by
  induction sched generalizing qs with
  | nil =>
      intro p hp
      simp [runSched] at hp
  | cons j rest ih =>
      intro p hp
      cases hq : qs j with
      | nil =>
          rw [show runSched qs (j :: rest) = runSched qs rest by
            simp [runSched, hq]] at hp
          exact ih qs p hp
      | cons f fs =>
          rw [show runSched qs (j :: rest) =
              (j, f) :: runSched (Function.update qs j fs) rest by
            simp [runSched, hq]] at hp
          rcases List.mem_cons.1 hp with rfl | hp2
          · simp [hq]
          · have h2 := ih (Function.update qs j fs) p hp2
            by_cases hpj : p.1 = j
            · rw [hpj] at h2 ⊢
              rw [Function.update_same] at h2
              rw [hq]
              exact List.mem_cons_of_mem f h2
            · rwa [Function.update_noteq hpj] at h2

theorem runSched_client_order (qs : ClientId → List Bytes) (sched : List ClientId)
    (i : ClientId) :
    ((runSched qs sched).filter (fun p => p.1 == i)).map Prod.snd <+: qs i := by
  induction sched generalizing qs with
  | nil => exact ⟨qs i, rfl⟩
  | cons j rest ih =>
      cases hq : qs j with
      | nil =>
          rw [show runSched qs (j :: rest) = runSched qs rest by
            simp [runSched, hq]]
          exact ih qs
      | cons f fs =>
          rw [show runSched qs (j :: rest) =
              (j, f) :: runSched (Function.update qs j fs) rest by
            simp [runSched, hq]]
          by_cases hji : j = i
          · subst hji
            have hc : (((j, f) : ClientId × Bytes).1 == j) = true := by simp
            rw [List.filter_cons, hc]
            obtain ⟨t, ht⟩ := ih (Function.update qs j fs)
            rw [Function.update_same] at ht
            refine ⟨t, ?_⟩
            rw [hq, if_pos rfl, List.map_cons, List.cons_append, ht]
          · have hc : (((j, f) : ClientId × Bytes).1 == i) = false := by
              simp [hji]
            rw [List.filter_cons, hc]
            have h2 := ih (Function.update qs j fs)
            rw [Function.update_noteq (fun h => hji h.symm)] at h2
            simpa using h2

/-- **C9**: under asyncio's cooperative scheduling, each `send_command`
appends its whole frame to the upstream transport in one synchronous
`write` call (lines 59-61), so for any per-client frame queues and any
interleaving of the client tasks, every frame the upstream connection
receives is a byte-exact copy of one frame of the client that wrote it, and
the frames coming from any single client form a prefix of that client's
queue - i.e. they arrive in that client's issuance order, never interleaved
byte-wise. -/
theorem C9_commands_never_interleaved (qs : ClientId → List Bytes)
    (sched : List ClientId) :
    (∀ p ∈ runSched qs sched, p.2 ∈ qs p.1) ∧
    (∀ i, ((runSched qs sched).filter (fun p => p.1 == i)).map Prod.snd <+: qs i) :=
  ⟨runSched_mem qs sched, fun i => runSched_client_order qs sched i⟩

/-- **C9** witness: two clients, client `i` queueing the single frame
`i 00 00 00 64`, scheduled one after the other: each received frame belongs
to its writer's queue and client 0's frames arrive in its order. -/
theorem C9_commands_never_interleaved_witness :
    (([0, 0, 0, 0, 100] : Bytes) ∈ ([[0, 0, 0, 0, 100]] : List Bytes)) ∧
    ((runSched (fun i => [[i, 0, 0, 0, 100]]) [0, 1]).filter
        (fun p => p.1 == 0)).map Prod.snd <+: [[0, 0, 0, 0, 100]] :=
  ⟨(C9_commands_never_interleaved (fun i => [[i, 0, 0, 0, 100]]) [0, 1]).1
      (0, [0, 0, 0, 0, 100]) (by simp [runSched]),
    (C9_commands_never_interleaved (fun i => [[i, 0, 0, 0, 100]]) [0, 1]).2 0⟩

end RTLSplit
